import Mathlib

/-!
Verification of the carpark-analytics ETL script (`scripts/etl.py`).

The script is a single-run Python pipeline: fetch a response body, extract
per-carpark rows from JSON (with fallbacks) or an HTML table, normalise the
carpark names against an alias table, enrich with a capacity lookup to compute
occupancy, and persist a latest snapshot plus an append-only history.

Modelling conventions:
* A Python `str` is a sequence of Unicode code points, modelled as `List Char`
  (`PyStr`).
* JSON values (the result of `json.loads`) are modelled by the inductive
  `JsonVal`; Python dicts are association lists where a later binding of the
  same key wins (`lookupLast`), matching insertion semantics of `dict`.
* Exceptions that abort the run (e.g. `AttributeError` on a non-string carpark
  name) are modelled by `Option`/`Except` results.
* External libraries are modelled by executable Lean functions faithful to
  their documented behaviour on the inputs this script can produce:
  `json.loads` as a strict JSON parser (`jsonLoads`), `unicodedata` NFKD
  folding restricted to a table of Latin letters (ASCII is untouched, which is
  exact for every string constant in the script), BeautifulSoup row selection
  as an explicit parameter `soupCells : PyStr → List (List PyStr)` giving the
  stripped cell texts of each selected table row.
-/

/-- A Python `str`: a finite sequence of Unicode code points. -/
abbrev PyStr := List Char

/-- Convert a Lean string literal to the Python-string model. -/
def pstr (s : String) : PyStr := s.toList

/-- Characters for which Python `str.isspace()` holds; this is the set stripped
by `str.strip()` and split on by `str.split()`. -/
def pythonWs (c : Char) : Bool :=
  c = ' ' || c = '\t' || c = '\n' || c = '\r' || c = '\x0b' || c = '\x0c' ||
  (0x1c ≤ c.toNat && c.toNat ≤ 0x1f) || c.toNat = 0x85 || c.toNat = 0xa0 ||
  c.toNat = 0x1680 || (0x2000 ≤ c.toNat && c.toNat ≤ 0x200a) ||
  c.toNat = 0x2028 || c.toNat = 0x2029 || c.toNat = 0x202f ||
  c.toNat = 0x205f || c.toNat = 0x3000

/-- Python `s.strip()`: remove leading and trailing whitespace. -/
def pyStrip (s : PyStr) : PyStr :=
  ((s.dropWhile pythonWs).reverse.dropWhile pythonWs).reverse

/-- Helper for `pySplit`: accumulate the current chunk (reversed). -/
def pySplitAux : PyStr → PyStr → List PyStr
  | [], acc => if acc = [] then [] else [acc.reverse]
  | c :: rest, acc =>
    if pythonWs c then
      if acc = [] then pySplitAux rest []
      else acc.reverse :: pySplitAux rest []
    else pySplitAux rest (c :: acc)

/-- Python `s.split()` with no argument: split on runs of whitespace,
discarding empty chunks. -/
def pySplit (s : PyStr) : List PyStr := pySplitAux s []

/-- Python `" ".join(chunks)`. -/
def joinSpace (chunks : List PyStr) : PyStr := List.intercalate [' '] chunks

/-- Model of `unicodedata.normalize("NFKD", ·)` at the character level,
restricted to a table of precomposed Latin letters; every other character
(in particular all of ASCII) is left unchanged, which is exact for the
constants appearing in the script. -/
def nfkdChar (c : Char) : List Char :=
  if c = 'á' then ['a', '́'] else
  if c = 'é' then ['e', '́'] else
  if c = 'í' then ['i', '́'] else
  if c = 'ó' then ['o', '́'] else
  if c = 'ú' then ['u', '́'] else
  if c = 'à' then ['a', '̀'] else
  if c = 'è' then ['e', '̀'] else
  if c = 'ä' then ['a', '̈'] else
  if c = 'ë' then ['e', '̈'] else
  if c = 'ö' then ['o', '̈'] else
  if c = 'ü' then ['u', '̈'] else
  if c = 'ā' then ['a', '̄'] else
  if c = 'ē' then ['e', '̄'] else
  if c = 'ī' then ['i', '̄'] else
  if c = 'ō' then ['o', '̄'] else
  if c = 'ū' then ['u', '̄'] else
  if c = 'ç' then ['c', '̧'] else
  if c = 'ñ' then ['n', '̃'] else
  if c = 'Á' then ['A', '́'] else
  if c = 'É' then ['E', '́'] else
  if c = 'Ā' then ['A', '̄'] else
  if c = 'Ē' then ['E', '̄'] else
  if c = 'Ī' then ['I', '̄'] else
  if c = 'Ō' then ['O', '̄'] else
  if c = 'Ū' then ['U', '̄'] else
  [c]

/-- Model of `unicodedata.combining(ch) != 0`: combining diacritical marks. -/
def isCombining (c : Char) : Bool :=
  (0x300 ≤ c.toNat && c.toNat ≤ 0x36f) ||
  (0x1ab0 ≤ c.toNat && c.toNat ≤ 0x1aff) ||
  (0x20d0 ≤ c.toNat && c.toNat ≤ 0x20ff)

/-- Model of Python `str.lower()`; `Char.toLower` is exact on ASCII, and the
accented Latin capitals in scope are decomposed by `nfkdChar` first. -/
def pyLower (s : PyStr) : PyStr := s.map Char.toLower

/-- Model of `_norm` from `etl.py`: strip, collapse internal whitespace runs, NFKD
decomposition, drop combining marks, lowercase. -/
def _norm (s : PyStr) : PyStr :=
  let s1 := pyStrip s
  let s2 := joinSpace (pySplit s1)
  let s3 := (s2.flatMap nfkdChar).filter (fun c => !(isCombining c))
  pyLower s3

/-- Last-wins association-list lookup, matching Python `dict` built by
successive insertion (`d[k] = v` overwrites) and read by `d.get(k)`. -/
def lookupLast {α : Type} (kvs : List (PyStr × α)) (k : PyStr) : Option α :=
  kvs.foldl (fun acc kv => if kv.1 = k then some kv.2 else acc) none

/-- The `ALIASES` dict from `etl.py`: keys are `_norm` of the written
literals, values are the display names. -/
def ALIASES : List (PyStr × PyStr) :=
  [ (_norm (pstr "Victoria St"), pstr "Victoria Street"),
    (_norm (pstr "Victoria Street"), pstr "Victoria Street"),
    (_norm (pstr "Civic"), pstr "Civic"),
    (_norm (pstr "Downtown"), pstr "Downtown"),
    (_norm (pstr "Ronwood"), pstr "Ronwood"),
    (_norm (pstr "Toka Puia"), pstr "Toka Puia") ]

/-- The `IGNORE_CARPARKS` set from `etl.py` (already-normalised literal). -/
def IGNORE_CARPARKS : List PyStr := [pstr "albert street"]

/-- The `STOP_COLLECTING` set from `etl.py`. -/
def STOP_COLLECTING : List PyStr := [_norm (pstr "Downtown")]

/-- The sentinel string returned by `canonical_name` for ignored carparks. -/
def IGNORE_SENTINEL : PyStr := pstr "__IGNORE__"

/-- Model of `canonical_name` from `etl.py`: normalise the key; ignored keys give the
sentinel; alias hits give the display name; otherwise the raw name is
returned stripped but with its casing unchanged. -/
def canonical_name (raw_name : PyStr) : PyStr :=
  let k := _norm raw_name
  if k ∈ IGNORE_CARPARKS then IGNORE_SENTINEL
  else (lookupLast ALIASES k).getD (pyStrip raw_name)

example : _norm (pstr "  VICTORIA   ST ") = pstr "victoria st" := by decide
example : canonical_name (pstr "victoria st") = pstr "Victoria Street" := by decide
example : canonical_name (pstr "Albert  Street") = IGNORE_SENTINEL := by decide
example : canonical_name (pstr "Foo") = pstr "Foo" := by decide
example : canonical_name (pstr "foo") = pstr "foo" := by decide

/-! ## JSON values and the model of `json.loads` -/

/-- A parsed JSON value, as produced by Python `json.loads`.  Numbers are
modelled exactly as rationals (Python separates `int` and `float`; both embed
in `ℚ` and the script only ever truncates them back with `int(...)`).
Objects are association lists; a later duplicate key overwrites an earlier
one, which `lookupLast` implements. -/
inductive JsonVal : Type where
  | null : JsonVal
  | bool (b : Bool) : JsonVal
  | num (q : ℚ) : JsonVal
  | str (s : PyStr) : JsonVal
  | arr (xs : List JsonVal) : JsonVal
  | obj (kvs : List (PyStr × JsonVal)) : JsonVal

/-- Python truthiness of a JSON-derived value (`bool(x)`). -/
def pyTruthy : JsonVal → Bool
  | JsonVal.null => false
  | JsonVal.bool b => b
  | JsonVal.num q => !(q = 0 : Bool)
  | JsonVal.str s => !s.isEmpty
  | JsonVal.arr xs => !xs.isEmpty
  | JsonVal.obj kvs => !kvs.isEmpty

/-- JSON whitespace (the only characters `json.loads` skips between tokens). -/
def jsonWs (c : Char) : Bool := c = ' ' || c = '\t' || c = '\n' || c = '\r'

/-- Skip JSON whitespace. -/
def skipWs (s : PyStr) : PyStr := s.dropWhile jsonWs

/-- ASCII decimal digit test. -/
def isDigitC (c : Char) : Bool := '0' ≤ c && c ≤ '9'

/-- Numeric value of a string of ASCII digits. -/
def digitsToNat (ds : PyStr) : Nat :=
  ds.foldl (fun a c => a * 10 + (c.toNat - 48)) 0

/-- Hexadecimal digit value, for `\u` escapes. -/
def hexVal (c : Char) : Option Nat :=
  if '0' ≤ c && c ≤ '9' then some (c.toNat - 48)
  else if 'a' ≤ c && c ≤ 'f' then some (c.toNat - 87)
  else if 'A' ≤ c && c ≤ 'F' then some (c.toNat - 55)
  else none

/-- Parse the body of a JSON string after the opening quote; returns the
decoded text and the remainder after the closing quote. -/
def parseStringBody : PyStr → Option (PyStr × PyStr)
  | [] => none
  | c :: r =>
    if c = '"' then some ([], r)
    else if c = '\\' then
      match r with
      | [] => none
      | e :: r2 =>
        if e = '"' then (parseStringBody r2).map (fun p => ('"' :: p.1, p.2))
        else if e = '\\' then (parseStringBody r2).map (fun p => ('\\' :: p.1, p.2))
        else if e = '/' then (parseStringBody r2).map (fun p => ('/' :: p.1, p.2))
        else if e = 'b' then (parseStringBody r2).map (fun p => ('\x08' :: p.1, p.2))
        else if e = 'f' then (parseStringBody r2).map (fun p => ('\x0c' :: p.1, p.2))
        else if e = 'n' then (parseStringBody r2).map (fun p => ('\n' :: p.1, p.2))
        else if e = 'r' then (parseStringBody r2).map (fun p => ('\r' :: p.1, p.2))
        else if e = 't' then (parseStringBody r2).map (fun p => ('\t' :: p.1, p.2))
        else if e = 'u' then
          match r2 with
          | h1 :: h2 :: h3 :: h4 :: r3 =>
            match hexVal h1, hexVal h2, hexVal h3, hexVal h4 with
            | some a, some b, some c3, some d =>
              (parseStringBody r3).map
                (fun p => (Char.ofNat (a * 4096 + b * 256 + c3 * 16 + d) :: p.1, p.2))
            | _, _, _, _ => none
          | _ => none
        else none
    else if c.toNat < 32 then none
    else (parseStringBody r).map (fun p => (c :: p.1, p.2))

/-- Take a maximal run of ASCII digits. -/
def takeDigits (s : PyStr) : PyStr × PyStr := (s.takeWhile isDigitC, s.dropWhile isDigitC)

/-- Parse the optional fraction part of a JSON number: digit value and digit
count. -/
def parseFrac : PyStr → Option (Nat × Nat × PyStr)
  | '.' :: r =>
    let p := takeDigits r
    if p.1 = [] then none
    else some (digitsToNat p.1, p.1.length, p.2)
  | s => some (0, 0, s)

/-- Parse the optional exponent part of a JSON number. -/
def parseExp (s : PyStr) : Option (Int × PyStr) :=
  match s with
  | c :: r =>
    if c = 'e' || c = 'E' then
      match r with
      | '+' :: r2 =>
        let p := takeDigits r2
        if p.1 = [] then none else some ((digitsToNat p.1 : Int), p.2)
      | '-' :: r2 =>
        let p := takeDigits r2
        if p.1 = [] then none else some (-(digitsToNat p.1 : Int), p.2)
      | r2 =>
        let p := takeDigits r2
        if p.1 = [] then none else some ((digitsToNat p.1 : Int), p.2)
    else some (0, c :: r)
  | [] => some (0, [])

/-- Parse a JSON number per the strict grammar used by `json.loads`
(`-?(0|[1-9][0-9]*)(\.[0-9]+)?([eE][+-]?[0-9]+)?`). -/
def parseNumber (s : PyStr) : Option (ℚ × PyStr) :=
  let sp : Bool × PyStr := match s with
    | '-' :: r => (true, r)
    | _ => (false, s)
  let ds := takeDigits sp.2
  if ds.1 = [] then none
  else if ds.1.length > 1 && ds.1.head? = some '0' then none
  else
    match parseFrac ds.2 with
    | none => none
    | some (fv, fd, r2) =>
      match parseExp r2 with
      | none => none
      | some (ex, r3) =>
        let mantissa : Int := (digitsToNat ds.1 * Nat.pow 10 fd + fv : Nat)
        let signed : Int := if sp.1 then -mantissa else mantissa
        let q : ℚ :=
          if 0 ≤ ex then mkRat (signed * (Nat.pow 10 ex.toNat : Nat)) (Nat.pow 10 fd)
          else mkRat signed (Nat.pow 10 fd * Nat.pow 10 (-ex).toNat)
        some (q, r3)

mutual

/-- Fuel-indexed parser for a single JSON value; the input must start directly
at the value (whitespace already skipped). -/
def parseValue : Nat → PyStr → Option (JsonVal × PyStr)
  | 0, _ => none
  | Nat.succ f, s =>
    match s with
    | [] => none
    | c :: r =>
      if c = '\x7b' then
        match skipWs r with
        | '\x7d' :: r2 => some (JsonVal.obj [], r2)
        | s2 =>
          match parseMembers f s2 with
          | some (kvs, r2) => some (JsonVal.obj kvs, r2)
          | none => none
      else if c = '[' then
        match skipWs r with
        | ']' :: r2 => some (JsonVal.arr [], r2)
        | s2 =>
          match parseItems f s2 with
          | some (xs, r2) => some (JsonVal.arr xs, r2)
          | none => none
      else if c = '"' then
        match parseStringBody r with
        | some (t, r2) => some (JsonVal.str t, r2)
        | none => none
      else if c = 'n' then
        match r with
        | 'u' :: 'l' :: 'l' :: r2 => some (JsonVal.null, r2)
        | _ => none
      else if c = 't' then
        match r with
        | 'r' :: 'u' :: 'e' :: r2 => some (JsonVal.bool true, r2)
        | _ => none
      else if c = 'f' then
        match r with
        | 'a' :: 'l' :: 's' :: 'e' :: r2 => some (JsonVal.bool false, r2)
        | _ => none
      else
        match parseNumber (c :: r) with
        | some (q, r2) => some (JsonVal.num q, r2)
        | none => none

/-- Parse one or more comma-separated array items and the closing bracket. -/
def parseItems : Nat → PyStr → Option (List JsonVal × PyStr)
  | 0, _ => none
  | Nat.succ f, s =>
    match parseValue f s with
    | none => none
    | some (v, r) =>
      match skipWs r with
      | ',' :: r2 =>
        match parseItems f (skipWs r2) with
        | some (xs, r3) => some (v :: xs, r3)
        | none => none
      | ']' :: r2 => some ([v], r2)
      | _ => none

/-- Parse one or more comma-separated object members and the closing brace. -/
def parseMembers : Nat → PyStr → Option (List (PyStr × JsonVal) × PyStr)
  | 0, _ => none
  | Nat.succ f, s =>
    match s with
    | '"' :: r =>
      match parseStringBody r with
      | none => none
      | some (k, r1) =>
        match skipWs r1 with
        | ':' :: r2 =>
          match parseValue f (skipWs r2) with
          | none => none
          | some (v, r3) =>
            match skipWs r3 with
            | ',' :: r4 =>
              match parseMembers f (skipWs r4) with
              | some (kvs, r5) => some ((k, v) :: kvs, r5)
              | none => none
            | '\x7d' :: r4 => some ([(k, v)], r4)
            | _ => none
        | _ => none
    | _ => none

end

/-- Model of Python `json.loads`: parse exactly one JSON value, allowing
surrounding whitespace, and fail (raising `JSONDecodeError`, i.e. `none`) on
any leftover input.  The recursion fuel `2 * length + 2` exceeds the worst
case of two fuel units per nesting character, so it never cuts off a valid
parse. -/
def jsonLoads (s : PyStr) : Option JsonVal :=
  match parseValue (2 * s.length + 2) (skipWs s) with
  | some (v, rest) => if skipWs rest = [] then some v else none
  | none => none

example : jsonLoads (pstr "[]") = some (JsonVal.arr []) := rfl
example : jsonLoads (pstr " \x7b\"a\": 1\x7d ") =
    some (JsonVal.obj [(pstr "a", JsonVal.num 1)]) := rfl
example : jsonLoads (pstr "\x7b\"a\":1\x7d x") = none := rfl
example : jsonLoads (pstr "[1, -2.5e1, \"hi\", true, null]") =
    some (JsonVal.arr [JsonVal.num 1, JsonVal.num (-25), JsonVal.str (pstr "hi"),
      JsonVal.bool true, JsonVal.null]) := rfl
example : jsonLoads (pstr "[01]") = none := rfl
example : jsonLoads (pstr "\x7b\"data\":[\x7b\"name\":\"Civic\",\"available\":10\x7d]\x7d") =
    some (JsonVal.obj [(pstr "data",
      JsonVal.arr [JsonVal.obj [(pstr "name", JsonVal.str (pstr "Civic")),
        (pstr "available", JsonVal.num 10)]])]) := rfl

/-! ## `try_parse_json`: the three extraction strategies -/

/-- Python `s.find(c)` for a single character, as `Option` (`none` = `-1`). -/
def findIdx (c : Char) (s : PyStr) : Option Nat := s.findIdx? (fun x => x = c)

/-- Python `s.rfind(c)` for a single character, as `Option` (`none` = `-1`). -/
def rfindIdx (c : Char) (s : PyStr) : Option Nat :=
  match (s.reverse).findIdx? (fun x => x = c) with
  | some k => some (s.length - 1 - k)
  | none => none

/-- One embedded-substring strategy of `try_parse_json`: locate the first
`openC` and the last `closeC`; when both exist in that order, slice
`txt[a : b + 1]` and run `json.loads` on it. -/
def sliceParse (txt : PyStr) (openC closeC : Char) : Option JsonVal :=
  match findIdx openC txt, rfindIdx closeC txt with
  | some a, some b => if a < b then jsonLoads ((txt.drop a).take (b + 1 - a)) else none
  | _, _ => none

/-- Does the trimmed body start with a brace or bracket?  (`txt.startswith`.) -/
def startsBraceOrBracket (txt : PyStr) : Bool :=
  txt.head? = some '\x7b' || txt.head? = some '['

/-- Model of `try_parse_json` from `etl.py`.  When the stripped text starts with a
brace or bracket the whole body is parsed and any failure yields `none`
directly (the `except` clause returns `None`).  Otherwise the embedded-object
strategy runs, falling through to the embedded-array strategy on failure. -/
def tryParseJson (respText : PyStr) : Option JsonVal :=
  let txt := pyStrip respText
  if startsBraceOrBracket txt then jsonLoads txt
  else
    match sliceParse txt '\x7b' '\x7d' with
    | some v => some v
    | none => sliceParse txt '[' ']'

example : tryParseJson (pstr "\x7b\"a\":1\x7d x") = none := rfl
example : tryParseJson (pstr "text \x7b\"a\":1\x7d tail") =
    some (JsonVal.obj [(pstr "a", JsonVal.num 1)]) := rfl
example : tryParseJson (pstr "pre [1,2] post") =
    some (JsonVal.arr [JsonVal.num 1, JsonVal.num 2]) := rfl
example : tryParseJson (pstr "no json here") = none := rfl

/-! ## Row extraction from a parsed JSON payload -/

/-- A raw row dict as built in `run`: keys `carpark`, `parking_option`,
`available_spaces`.  Values are arbitrary JSON-derived values (`null`
standing for Python `None`). -/
structure RowDict : Type where
  carpark : JsonVal
  parking_option : JsonVal
  available_spaces : JsonVal

/-- Python `rec.get(k)` on a JSON object: `null` when the key is absent. -/
def dictGetD (kvs : List (PyStr × JsonVal)) (k : PyStr) : JsonVal :=
  (lookupLast kvs k).getD JsonVal.null

/-- Python `a or b`: `a` when truthy, else `b`. -/
def pyOr (a b : JsonVal) : JsonVal := if pyTruthy a then a else b

/-- Build one row from a JSON record, mirroring the three
`rec.get(k1) or rec.get(k2) or default` chains in `run`.  A non-`dict`
record makes `rec.get` raise `AttributeError`, aborting the run: `none`. -/
def rowFromRec : JsonVal → Option RowDict
  | JsonVal.obj kvs => some
      { carpark := pyOr (dictGetD kvs (pstr "carParkName"))
          (pyOr (dictGetD kvs (pstr "name")) (JsonVal.str [])),
        parking_option := pyOr (dictGetD kvs (pstr "category"))
          (pyOr (dictGetD kvs (pstr "parkingOption")) (JsonVal.str [])),
        available_spaces := pyOr (dictGetD kvs (pstr "availableSpaces"))
          (pyOr (dictGetD kvs (pstr "available")) JsonVal.null) }
  | _ => none

/-- Build rows from every element of a JSON array; any non-object element
aborts the run (`AttributeError`). -/
def rowsFromList : List JsonVal → Option (List RowDict)
  | [] => some []
  | x :: xs =>
    match rowFromRec x, rowsFromList xs with
    | some r, some rs => some (r :: rs)
    | _, _ => none

/-- The ordered candidate container keys probed on a JSON object. -/
def CONTAINER_KEYS : List PyStr :=
  [pstr "data", pstr "results", pstr "items", pstr "carParks",
   pstr "CarParks", pstr "Result"]

/-- Probe the container keys in order; the first key present whose value is a
list wins (`if key in data and isinstance(data[key], list)`). -/
def firstContainer (kvs : List (PyStr × JsonVal)) : List PyStr → Option (List JsonVal)
  | [] => none
  | k :: ks =>
    match lookupLast kvs k with
    | some (JsonVal.arr xs) => some xs
    | _ => firstContainer kvs ks

/-- Rows derived from the parsed JSON value (`isinstance` dispatch in `run`):
arrays map element-wise; objects go through the container-key probe; anything
else (including a failed parse) leaves `rows` empty. -/
def rowsFromData : Option JsonVal → Option (List RowDict)
  | some (JsonVal.arr xs) => rowsFromList xs
  | some (JsonVal.obj kvs) =>
    match firstContainer kvs CONTAINER_KEYS with
    | some xs => rowsFromList xs
    | none => some []
  | _ => some []

/-! ## `parse_html_table` -/

/-- Model of `int(re.sub(r"[^\d]", "", available))`: keep the digit characters; an
empty digit string makes `int("")` raise, degraded to `None` by the
`except`. -/
def coerceAvailable (s : PyStr) : Option Nat :=
  let ds := s.filter isDigitC
  if ds = [] then none else some (digitsToNat ds)

/-- Model of `parse_html_table` from `etl.py`.  BeautifulSoup row selection
(`soup.select(".divTable .divTableRow")` with per-row
`row.select(".divTableCell")` and `get_text(strip=True)`) is an external
library, passed in as `soupCells`, returning the stripped cell texts of each
selected row.  The script's own logic — skip rows with fewer than three
cells, skip rows whose normalised name is in the ignore set, digit-coerce the
third cell — is modelled here from the source. -/
def parse_html_table (soupCells : PyStr → List (List PyStr)) (respText : PyStr) :
    List RowDict :=
  (soupCells respText).filterMap fun cells =>
    match cells with
    | c0 :: c1 :: c2 :: _ =>
      if _norm c0 ∈ IGNORE_CARPARKS then none
      else some
        { carpark := JsonVal.str c0,
          parking_option := JsonVal.str c1,
          available_spaces :=
            match coerceAvailable c2 with
            | some n => JsonVal.num n
            | none => JsonVal.null }
    | _ => none

/-! ## The extraction phase of `run` (lines 138-164) -/

/-- Python substring containment `needle in hay`. -/
def containsSub (needle : PyStr) : PyStr → Bool
  | [] => needle.isEmpty
  | c :: rest => needle.isPrefixOf (c :: rest) || containsSub needle rest

/-- Case-insensitive test `"application/json" in content_type.lower()`. -/
def ctMentionsJson (contentType : PyStr) : Bool :=
  containsSub (pstr "application/json") (pyLower contentType)

/-- The extraction phase of `run`, instrumented with a flag recording whether
the HTML fallback was consulted.  Mirrors lines 138-164 of `etl.py`: an
optional content-type-gated JSON parse, a repeated unconditional JSON parse
when the first left `data` as `None`, `isinstance` row building, then
`if not rows: rows = parse_html_table(body)`.  `none` models an
`AttributeError` aborting the run. -/
def extractRowsI (soupCells : PyStr → List (List PyStr)) (body contentType : PyStr) :
    Option (List RowDict × Bool) :=
  let viaCt : Option JsonVal :=
    if ctMentionsJson contentType then tryParseJson body else none
  let data : Option JsonVal :=
    match viaCt with
    | none => tryParseJson body
    | some d => some d
  match rowsFromData data with
  | none => none
  | some rows =>
    if rows.isEmpty then some (parse_html_table soupCells body, true)
    else some (rows, false)

/-- The extraction phase of `run` without the instrumentation flag. -/
def extractRows (soupCells : PyStr → List (List PyStr)) (body contentType : PyStr) :
    Option (List RowDict) :=
  (extractRowsI soupCells body contentType).map Prod.fst

/-! ## Capacity lookup -/

/-- One row of `capacity_lookup.csv` as seen through `csv.DictReader`:
`row.get` yields the cell text, or `None` when the column is missing. -/
structure CapRow : Type where
  carpark : Option PyStr
  total_spaces : Option PyStr

/-- Python `str(x)` for an optional string (`str(None) = "None"`). -/
def strPy : Option PyStr → PyStr
  | none => pstr "None"
  | some s => s

/-- Python `int(s)` on a string: surrounding whitespace allowed, an optional
sign, then a non-empty run of digits (ASCII model). -/
def pyIntOfStr (s : PyStr) : Option Int :=
  let t := pyStrip s
  match t with
  | '-' :: ds =>
    if ds ≠ [] ∧ ds.all isDigitC then some (-(digitsToNat ds : Int)) else none
  | '+' :: ds =>
    if ds ≠ [] ∧ ds.all isDigitC then some ((digitsToNat ds : Int)) else none
  | ds =>
    if ds ≠ [] ∧ ds.all isDigitC then some ((digitsToNat ds : Int)) else none

/-- The per-row body of `load_capacity_lookup`: `(row.get("carpark") or
"").strip()` for the name, `int(str(total).strip())` with exceptions
degraded to `None`, then `if name and total_i: cap[name] = total_i`.
Returns the retained entry, or `none` when the row is skipped. -/
def capEntry (row : CapRow) : Option (PyStr × Int) :=
  let name := pyStrip (row.carpark.getD [])
  match pyIntOfStr (pyStrip (strPy row.total_spaces)) with
  | some t => if name ≠ [] ∧ t ≠ 0 then some (name, t) else none
  | none => none

/-- Model of `load_capacity_lookup` from `etl.py`: an absent file yields the empty
mapping; otherwise malformed rows are skipped silently.  The resulting dict
is modelled as the list of retained entries, read with `lookupLast` (a later
row for the same name overwrites an earlier one, as `cap[name] = total_i`
does). -/
def load_capacity_lookup (file : Option (List CapRow)) : List (PyStr × Int) :=
  match file with
  | none => []
  | some rows => rows.filterMap capEntry

example : load_capacity_lookup (some
    [⟨some (pstr "Victoria Street"), some (pstr " 120 ")⟩,
     ⟨some (pstr ""), some (pstr "50")⟩,
     ⟨some (pstr "Zero"), some (pstr "0")⟩,
     ⟨some (pstr "Bad"), some (pstr "12a")⟩,
     ⟨none, some (pstr "7")⟩]) = [(pstr "Victoria Street", 120)] := rfl

/-! ## Occupancy computation and enrichment (lines 166-196) -/

/-- Truncation toward zero, the behaviour of Python `int()` on numbers. -/
def truncRat (q : ℚ) : Int := if 0 ≤ q then Int.floor q else -Int.floor (-q)

/-- Python `int(x)` on a JSON-derived value: numbers truncate toward zero,
booleans map to 0/1, strings parse as integers; `None`, lists and dicts
raise (`none`). -/
def pyInt : JsonVal → Option Int
  | JsonVal.null => none
  | JsonVal.bool b => some (if b then 1 else 0)
  | JsonVal.num q => some (truncRat q)
  | JsonVal.str s => pyIntOfStr s
  | JsonVal.arr _ => none
  | JsonVal.obj _ => none

/-- Round-half-to-even of the fraction `num / den` (`den > 0`), the rounding
rule of Python `round`, computed on integers: `f` is the floor and `r2`
twice the remainder, so `r2 < den`, `r2 > den` and `r2 = den` discriminate
below-half, above-half and the tie. -/
def roundHalfEvenAt (num : Int) (den : Nat) : Int :=
  let f := Int.fdiv num den
  let r2 := 2 * (num - f * den)
  if r2 < (den : Int) then f
  else if (den : Int) < r2 then f + 1
  else if 2 ∣ f then f else f + 1

/-- Python `round(x, 4)` over the exact-rational model of the float
computation: round-half-even of `x * 10^4`, divided by `10^4`. -/
def pyRound4 (q : ℚ) : ℚ := mkRat (roundHalfEvenAt (q.num * 10000) q.den) 10000

/-- The occupancy computation of `run`:
`if total not in (None, 0) and available not in (None, ""):` guards a
`round((int(total) - int(available)) / int(total), 4)` whose coercion
failures degrade to `None`. -/
def computeOccupancy (total : Option Int) (available : JsonVal) : Option ℚ :=
  match total with
  | none => none
  | some t =>
    if t = 0 then none
    else
      match available with
      | JsonVal.null => none
      | JsonVal.str [] => none
      | av =>
        match pyInt av with
        | none => none
        | some a => some (pyRound4 (Rat.divInt (t - a) t))

example : computeOccupancy (some 100) (JsonVal.num 40) = some (mkRat 3 5) := rfl
example : computeOccupancy (some 120) (JsonVal.num 45) = some (mkRat 5 8) := rfl
example : computeOccupancy (some 3) (JsonVal.num 1) = some (mkRat 6667 10000) := rfl
example : computeOccupancy (some 0) (JsonVal.num 40) = none := rfl
example : computeOccupancy none (JsonVal.num 40) = none := rfl

/-- One persisted output record (`norm_rows` entry in `run`). -/
structure EnrichedRecord : Type where
  timestamp_utc : PyStr
  carpark : PyStr
  available_spaces : JsonVal
  total_spaces : Option Int
  occupancy : Option ℚ
  status : PyStr
  parking_option : JsonVal
  source_last_updated : PyStr

/-- The value `raw_name` as consumed by `canonical_name`/`_norm`, whose first
step is `(raw_name or "").strip()`: a string is used as is, any falsy value
becomes the empty string, and a truthy non-string raises `AttributeError`
at `.strip()`, aborting the run (`none`). -/
def strOfCarpark : JsonVal → Option PyStr
  | JsonVal.str s => some s
  | v => if pyTruthy v then none else some []

/-- The per-row enrichment body of `run` (lines 170-196).  Result:
`none` = the run aborts with `AttributeError`; `some none` = the row is
filtered out (ignore sentinel or stop-collecting); `some (some e)` = the row
contributes the record `e`. -/
def enrichRow (cap : List (PyStr × Int)) (ts : PyStr) (r : RowDict) :
    Option (Option EnrichedRecord) :=
  match strOfCarpark r.carpark with
  | none => none
  | some raw_name =>
    let canon := canonical_name raw_name
    if canon = IGNORE_SENTINEL then some none
    else if _norm canon ∈ STOP_COLLECTING then some none
    else
      let total := lookupLast cap canon
      some (some
        { timestamp_utc := ts,
          carpark := canon,
          available_spaces := r.available_spaces,
          total_spaces := total,
          occupancy := computeOccupancy total r.available_spaces,
          status := [],
          parking_option := r.parking_option,
          source_last_updated := [] })

/-- Enrich a list of rows in order; an aborting row aborts the whole batch
(the exception propagates before any output is written). -/
def enrichRows (cap : List (PyStr × Int)) (ts : PyStr) :
    List RowDict → Option (List EnrichedRecord)
  | [] => some []
  | r :: rs =>
    match enrichRow cap ts r with
    | none => none
    | some none => enrichRows cap ts rs
    | some (some e) =>
      match enrichRows cap ts rs with
      | some es => some (e :: es)
      | none => none

/-- Extraction followed by enrichment: the batch of records `run` persists
for a given body, content type, capacity table and run timestamp. -/
def runBatch (soupCells : PyStr → List (List PyStr)) (body contentType : PyStr)
    (cap : List (PyStr × Int)) (ts : PyStr) : Option (List EnrichedRecord) :=
  match extractRows soupCells body contentType with
  | none => none
  | some rows => enrichRows cap ts rows

/-! ## Persistence and the run skeleton -/

/-- Model of the `history.csv` handling in `run`: load-and-concatenate when the file
exists, else just the current batch.  Row contents are preserved verbatim
(`pd.concat` row-wise); the CSV encoding itself is external plumbing. -/
def persist_history (old : Option (List EnrichedRecord))
    (batch : List EnrichedRecord) : List EnrichedRecord :=
  match old with
  | some rows => rows ++ batch
  | none => batch

/-- The two output files the claims speak about. -/
structure FileSys : Type where
  latest : Option (List EnrichedRecord)
  history : Option (List EnrichedRecord)

/-- A failed fetch: `requests.get` timeout or connection error, or a non-2xx
status turned into an exception by `resp.raise_for_status()` — all before
anything is written. -/
inductive NetworkError : Type where
  | timeout : NetworkError
  | connectionError : NetworkError
  | httpStatus (code : Nat) : NetworkError

/-- An error terminating `run`. -/
inductive RunError : Type where
  | network (e : NetworkError) : RunError
  | typeError : RunError

/-- The `run` skeleton: `fetch_raw` happens first and any network failure
propagates uncaught before either output file is opened; on success the
batch is computed (an `AttributeError` during row building or enrichment
also aborts before any write), then `latest.csv` is overwritten with the
batch and `history.csv` is rewritten as old-rows-then-batch. -/
def runModel (soupCells : PyStr → List (List PyStr))
    (fetchResult : Except NetworkError (PyStr × PyStr))
    (capFile : Option (List CapRow)) (ts : PyStr) (fs : FileSys) :
    Except RunError Unit × FileSys :=
  match fetchResult with
  | Except.error e => (Except.error (RunError.network e), fs)
  | Except.ok (body, contentType) =>
    match runBatch soupCells body contentType (load_capacity_lookup capFile) ts with
    | none => (Except.error RunError.typeError, fs)
    | some batch =>
      (Except.ok (),
        { latest := some batch,
          history := some (persist_history fs.history batch) })

/-- A BeautifulSoup model for a body containing no div-table markup at all
(such as plain JSON text): no rows are selected. -/
def soupNoRows : PyStr → List (List PyStr) := fun _ => []

/-- A BeautifulSoup model for the spec's one-row HTML scenario. -/
def soupVictoriaRow : PyStr → List (List PyStr) := fun _ =>
  [[pstr "Victoria St", pstr "Short Stay", pstr "45"]]

example : runBatch soupVictoriaRow (pstr "<html>") (pstr "text/html")
    [(pstr "Victoria Street", 120)] (pstr "T") =
    some [{ timestamp_utc := pstr "T", carpark := pstr "Victoria Street",
            available_spaces := JsonVal.num 45, total_spaces := some 120,
            occupancy := some (mkRat 5 8), status := [],
            parking_option := JsonVal.str (pstr "Short Stay"),
            source_last_updated := [] }] := rfl

example : runBatch soupNoRows
    (pstr "\x7b\"data\":[\x7b\"name\":\"Civic\",\"available\":10\x7d]\x7d")
    (pstr "text/html") [] (pstr "T") =
    some [{ timestamp_utc := pstr "T", carpark := pstr "Civic",
            available_spaces := JsonVal.num 10, total_spaces := none,
            occupancy := none, status := [],
            parking_option := JsonVal.str [],
            source_last_updated := [] }] := rfl

/-! ## Shared helper lemmas -/

/-- The content-type dance in `run` (lines 140-143) always leaves `data`
equal to `try_parse_json(body)`: the gated first parse either produced that
same value or left `data` as `None`, in which case the second parse runs. -/
theorem extract_data_eq (body contentType : PyStr) :
    (match (if ctMentionsJson contentType then tryParseJson body else none : Option JsonVal) with
      | none => tryParseJson body
      | some d => some d) = tryParseJson body := by
  by_cases hc : ctMentionsJson contentType
  · simp only [hc, if_true]
    cases h : tryParseJson body <;> simp
  · simp [hc]

/-- Every record a successful enrichment emits passed the two filters in
`run`: its carpark is not the ignore sentinel and its normalised key is not
in the stop-collecting set. -/
theorem enrichRows_carpark_ok (cap : List (PyStr × Int)) (ts : PyStr) :
    ∀ rows batch, enrichRows cap ts rows = some batch →
    ∀ e ∈ batch, e.carpark ≠ IGNORE_SENTINEL ∧ _norm e.carpark ∉ STOP_COLLECTING := by
  intro rows
  induction rows with
  | nil =>
    intro batch h e he
    simp only [enrichRows] at h
    cases h
    simp at he
  | cons r rs ih =>
    intro batch h e he
    simp only [enrichRows] at h
    cases henr : enrichRow cap ts r with
    | none => rw [henr] at h; cases h
    | some o =>
      rw [henr] at h
      cases o with
      | none => exact ih batch h e he
      | some e0 =>
        cases hrec : enrichRows cap ts rs with
        | none => rw [hrec] at h; cases h
        | some es =>
          rw [hrec] at h
          cases h
          have hcar : e0.carpark ≠ IGNORE_SENTINEL ∧ _norm e0.carpark ∉ STOP_COLLECTING := by
            simp only [enrichRow] at henr
            cases hso : strOfCarpark r.carpark with
            | none => rw [hso] at henr; cases henr
            | some raw =>
              rw [hso] at henr
              by_cases h1 : canonical_name raw = IGNORE_SENTINEL
              · simp only [h1, if_true] at henr; cases henr
              · by_cases h2 : _norm (canonical_name raw) ∈ STOP_COLLECTING
                · simp only [h1, if_false, h2, if_true] at henr; cases henr
                · simp only [h1, if_false, h2, if_true] at henr
                  cases henr
                  exact ⟨h1, h2⟩
          rcases List.mem_cons.mp he with he0 | hes
          · rw [he0]; exact hcar
          · exact ih es hrec e hes

/-! ## C3: normalisation-equal names and `canonical_name` -/

/-- C3 counterexample: "Foo" and "foo" normalise to the same key, but neither
hits the ignore set or the alias table, so `canonical_name` passes each raw
name through with its original casing and the results differ.  This refutes
the claim that key-equality always forces canonical equality. -/
theorem canonical_name_norm_cex :
    _norm (pstr "Foo") = _norm (pstr "foo") ∧
    canonical_name (pstr "Foo") ≠ canonical_name (pstr "foo") := by
  exact ⟨rfl, by decide⟩

/-- C3 (amended): if two raw names normalise to the same key AND that key is
resolved by one of the fixed tables (the ignore set or the alias table),
their canonical names agree.  (Unknown names pass through as the trimmed raw
string, so equality can fail exactly when the shared key misses both
tables.) -/
theorem canonical_name_respects_norm_on_tables (n1 n2 : PyStr)
    (h : _norm n1 = _norm n2)
    (hres : _norm n1 ∈ IGNORE_CARPARKS ∨ (lookupLast ALIASES (_norm n1)).isSome) :
    canonical_name n1 = canonical_name n2 := by
  simp only [canonical_name]
  rcases hres with hig | hal
  · rw [h] at hig
    rw [h]
    simp [hig]
  · rw [h] at hal
    rw [h]
    by_cases hi : _norm n2 ∈ IGNORE_CARPARKS
    · simp [hi]
    · obtain ⟨v, hv⟩ := Option.isSome_iff_exists.mp hal
      simp [hi, hv]

/-- C3 witness: "Victoria St" and "VICTORIA  ST" share the normalised key
"victoria st", which the alias table resolves, so both canonicalise to
"Victoria Street". -/
theorem canonical_name_respects_norm_on_tables_witness :
    _norm (pstr "Victoria St") = _norm (pstr "VICTORIA  ST") ∧
    canonical_name (pstr "Victoria St") = canonical_name (pstr "VICTORIA  ST") :=
  ⟨by decide,
   canonical_name_respects_norm_on_tables _ _ (by decide) (Or.inr (by decide))⟩

/-! ## C5: occupancy presence and value -/

/-- C5 counterexample: with `total = 3` and `available = 1` the code stores
`round(2/3, 4) = 0.6667`, which is not the exact quotient `(3 - 1) / 3` the
claim states. -/
theorem computeOccupancy_rounding_cex :
    computeOccupancy (some 3) (JsonVal.num 1) = some (mkRat 6667 10000) ∧
    (mkRat 6667 10000 : ℚ) ≠ ((3 : ℚ) - 1) / 3 := by
  refine ⟨rfl, ?_⟩
  intro hq
  rw [show ((3 : ℚ) - 1) / 3 = mkRat 2 3 by norm_num [Rat.mkRat_eq_div]] at hq
  exact absurd hq (by decide)

/-- C5 (amended): occupancy is non-null exactly when `total_spaces` is a
present nonzero integer and `available_spaces` is present and coerces to an
integer (`None` and `""` never coerce, so the code's
`available not in (None, "")` guard adds nothing to the condition); the
stored value is then `round((total - available) / total, 4)` — the exact
quotient of the claim rounded half-to-even at four decimal places. -/
theorem computeOccupancy_spec (total : Option Int) (available : JsonVal) :
    (computeOccupancy total available ≠ none ↔
      ∃ t a, total = some t ∧ t ≠ 0 ∧ pyInt available = some a) ∧
    (∀ t a, total = some t → t ≠ 0 → pyInt available = some a →
      computeOccupancy total available =
        some (pyRound4 (((t : ℚ) - (a : ℚ)) / (t : ℚ)))) := by
  have hval : ∀ (t a : Int), Rat.divInt (t - a) t = ((t : ℚ) - (a : ℚ)) / (t : ℚ) := by
    intro t a
    rw [Rat.divInt_eq_div]
    push_cast
    ring
  constructor
  · constructor
    · intro hne
      cases total with
      | none => simp [computeOccupancy] at hne
      | some t =>
        by_cases ht : t = 0
        · subst ht; simp [computeOccupancy] at hne
        · refine ⟨t, ?_⟩
          cases hav : pyInt available with
          | none =>
            exfalso
            apply hne
            cases available with
            | null => simp [computeOccupancy, ht]
            | str s =>
              cases s with
              | nil => simp [computeOccupancy, ht]
              | cons c cs => simp [computeOccupancy, ht, hav]
            | bool b => simp [pyInt] at hav
            | num q => simp [pyInt] at hav
            | arr xs => simp [computeOccupancy, ht, hav]
            | obj kvs => simp [computeOccupancy, ht, hav]
          | some a => exact ⟨a, rfl, ht, rfl⟩
    · rintro ⟨t, a, htot, ht, hav⟩
      subst htot
      cases available with
      | null => simp [pyInt] at hav
      | str s =>
        cases s with
        | nil => simp [pyInt, pyIntOfStr, pyStrip] at hav
        | cons c cs => simp [computeOccupancy, ht, hav]
      | bool b => simp [computeOccupancy, ht, hav]
      | num q => simp [computeOccupancy, ht, hav]
      | arr xs => simp [pyInt] at hav
      | obj kvs => simp [pyInt] at hav
  · intro t a htot ht hav
    subst htot
    cases available with
    | null => simp [pyInt] at hav
    | str s =>
      cases s with
      | nil => simp [pyInt, pyIntOfStr, pyStrip] at hav
      | cons c cs => simp [computeOccupancy, ht, hav, hval]
    | bool b => simp [computeOccupancy, ht, hav, hval]
    | num q => simp [computeOccupancy, ht, hav, hval]
    | arr xs => simp [pyInt] at hav
    | obj kvs => simp [pyInt] at hav

/-- C5 witness: `total = 100`, `available = 40` is non-null and stores
exactly `round(0.6, 4) = 0.6`. -/
theorem computeOccupancy_spec_witness :
    computeOccupancy (some 100) (JsonVal.num 40) ≠ none ∧
    computeOccupancy (some 100) (JsonVal.num 40) =
      some (pyRound4 (((100 : ℚ) - (40 : ℚ)) / (100 : ℚ))) :=
  ⟨(computeOccupancy_spec (some 100) (JsonVal.num 40)).1.mpr
      ⟨100, 40, rfl, by decide, rfl⟩,
   (computeOccupancy_spec (some 100) (JsonVal.num 40)).2 100 40 rfl (by decide) rfl⟩

/-! ## C7: history append -/

/-- C7: one run turns an existing history of `k` rows and a batch of `m`
rows into `k + m` rows — the old rows first and unchanged, then the batch —
and creates the history as exactly the batch when it was absent; and the
history file `run` writes on success is precisely this concatenation applied
to the pre-run history. -/
theorem persist_history_append (old batch : List EnrichedRecord) :
    ((persist_history (some old) batch).length = old.length + batch.length ∧
     (persist_history (some old) batch).take old.length = old ∧
     (persist_history (some old) batch).drop old.length = batch ∧
     persist_history none batch = batch) ∧
    (∀ soupCells body contentType capFile ts fs batch',
      runBatch soupCells body contentType (load_capacity_lookup capFile) ts = some batch' →
      (runModel soupCells (Except.ok (body, contentType)) capFile ts fs).2.history =
        some (persist_history fs.history batch')) := by
  constructor
  · refine ⟨by simp [persist_history], ?_, ?_, rfl⟩
    · simp [persist_history, List.take_left]
    · simp [persist_history, List.drop_left]
  · intro soupCells body contentType capFile ts fs batch' hrun
    simp only [runModel, hrun]

/-- A pre-existing history row used in concrete scenarios. -/
def oldHistRow : EnrichedRecord :=
  { timestamp_utc := pstr "T0", carpark := pstr "Old",
    available_spaces := JsonVal.null, total_spaces := none, occupancy := none,
    status := [], parking_option := JsonVal.null, source_last_updated := [] }

/-- The record the Civic JSON scenario produces. -/
def civicRecord : EnrichedRecord :=
  { timestamp_utc := pstr "T", carpark := pstr "Civic",
    available_spaces := JsonVal.num 10, total_spaces := none,
    occupancy := none, status := [], parking_option := JsonVal.str [],
    source_last_updated := [] }

/-- C7 witness: a concrete run (the Civic JSON body, empty capacity file,
one pre-existing history row) appends the batch after the old rows. -/
theorem persist_history_append_witness :
    (runModel soupNoRows
      (Except.ok (pstr "\x7b\"data\":[\x7b\"name\":\"Civic\",\"available\":10\x7d]\x7d",
        pstr "text/html")) (some []) (pstr "T")
      { latest := none, history := some [oldHistRow] }).2.history =
    some (persist_history (some [oldHistRow]) [civicRecord]) :=
  (persist_history_append [] []).2 soupNoRows _ _ (some []) (pstr "T") _ _ rfl

/-! ## C8: capacity loading -/

/-- C8 counterexample: a `total_spaces` of `"-5"` coerces to the truthy
integer `-5` and the entry is retained, so a retained value need not be a
positive integer as the claim states. -/
theorem load_capacity_negative_cex :
    load_capacity_lookup (some [⟨some (pstr "X"), some (pstr "-5")⟩]) =
      [(pstr "X", -5)] ∧
    ¬(0 < (-5 : Int)) := ⟨rfl, by decide⟩

/-- C8 (amended): capacity loading is a total function (never raises); an
absent file yields the empty mapping; rows with an empty stripped name, a
`total_spaces` failing integer coercion, or one coercing to zero are
silently skipped; and every retained entry maps a non-empty name to a
NONZERO (not necessarily positive) integer. -/
theorem load_capacity_lookup_spec :
    load_capacity_lookup none = [] ∧
    (∀ rows p, p ∈ load_capacity_lookup (some rows) → p.1 ≠ [] ∧ p.2 ≠ 0) ∧
    (∀ row : CapRow,
      pyStrip (row.carpark.getD []) = [] ∨
      pyIntOfStr (pyStrip (strPy row.total_spaces)) = none ∨
      pyIntOfStr (pyStrip (strPy row.total_spaces)) = some 0 →
      capEntry row = none) := by
  refine ⟨rfl, ?_, ?_⟩
  · intro rows p hp
    simp only [load_capacity_lookup] at hp
    obtain ⟨row, _, hentry⟩ := List.mem_filterMap.mp hp
    unfold capEntry at hentry
    cases hint : pyIntOfStr (pyStrip (strPy row.total_spaces)) with
    | none => simp only [hint] at hentry; cases hentry
    | some t =>
      simp only [hint] at hentry
      split_ifs at hentry with hcond
      cases hentry
      exact hcond
  · intro row hbad
    simp only [capEntry]
    rcases hbad with hname | hint | hzero
    · cases hint : pyIntOfStr (pyStrip (strPy row.total_spaces)) with
      | none => simp
      | some t => simp [hname]
    · simp [hint]
    · simp [hzero]

/-- C8 witness: a retained concrete entry is non-empty-named and nonzero,
and a concrete malformed row (empty name) is skipped. -/
theorem load_capacity_lookup_spec_witness :
    ((pstr "Victoria Street", (120 : Int)).1 ≠ [] ∧
      (pstr "Victoria Street", (120 : Int)).2 ≠ 0) ∧
    capEntry ⟨some (pstr ""), some (pstr "7")⟩ = none :=
  ⟨load_capacity_lookup_spec.2.1
      [⟨some (pstr "Victoria Street"), some (pstr "120")⟩]
      (pstr "Victoria Street", 120) (by decide),
   load_capacity_lookup_spec.2.2 ⟨some (pstr ""), some (pstr "7")⟩
      (Or.inl (by decide))⟩

/-! ## C9: network failure leaves the files untouched -/

/-- C9: any fetch failure (timeout, connection error, or a non-2xx status
raised by `raise_for_status`) terminates `run` with the error propagated
uncaught, and neither the latest-snapshot file nor the history file is
written or modified. -/
theorem runModel_network_failure_no_writes (soupCells : PyStr → List (List PyStr))
    (e : NetworkError) (capFile : Option (List CapRow)) (ts : PyStr) (fs : FileSys) :
    runModel soupCells (Except.error e) capFile ts fs =
      (Except.error (RunError.network e), fs) ∧
    (runModel soupCells (Except.error e) capFile ts fs).2.latest = fs.latest ∧
    (runModel soupCells (Except.error e) capFile ts fs).2.history = fs.history :=
  ⟨rfl, rfl, rfl⟩

/-! ## C10: extraction ignores the declared content type -/

/-- C10: the extracted record list depends only on the response body: the
content-type gate merely decides whether `try_parse_json` runs once or
twice, and the parse is pure, so any two declared content types give
identical extraction results. -/
theorem extractRows_content_type_irrelevant (soupCells : PyStr → List (List PyStr))
    (body ct1 ct2 : PyStr) :
    extractRows soupCells body ct1 = extractRows soupCells body ct2 := by
  simp only [extractRows, extractRowsI, extract_data_eq]

/-! ## C2: per-record field selection -/

/-- The claim's selection rule, stated from the spec's words for comparison:
the value of the first PRESENT of the two alternate keys, with the default
only when both keys are missing. -/
def specFirstPresent (kvs : List (PyStr × JsonVal)) (k1 k2 : PyStr)
    (dflt : JsonVal) : JsonVal :=
  match lookupLast kvs k1 with
  | some v => v
  | none =>
    match lookupLast kvs k2 with
    | some v => v
    | none => dflt

/-- C2 counterexample: the code's `or`-chains select the first TRUTHY value,
not the first present one.  With `carParkName` present but empty the code
takes `name` instead, and with `availableSpaces` present as `0` (present and
integer-coercible) the code yields `None`. -/
theorem rowFromRec_first_present_cex :
    ((rowFromRec (JsonVal.obj [(pstr "carParkName", JsonVal.str []),
        (pstr "name", JsonVal.str (pstr "Civic"))])).map RowDict.carpark =
      some (JsonVal.str (pstr "Civic")) ∧
     specFirstPresent [(pstr "carParkName", JsonVal.str []),
        (pstr "name", JsonVal.str (pstr "Civic"))]
        (pstr "carParkName") (pstr "name") (JsonVal.str []) = JsonVal.str [] ∧
     JsonVal.str (pstr "Civic") ≠ JsonVal.str []) ∧
    ((rowFromRec (JsonVal.obj [(pstr "availableSpaces", JsonVal.num 0)])).map
        RowDict.available_spaces = some JsonVal.null ∧
     specFirstPresent [(pstr "availableSpaces", JsonVal.num 0)]
        (pstr "availableSpaces") (pstr "available") JsonVal.null = JsonVal.num 0 ∧
     JsonVal.null ≠ JsonVal.num 0) :=
  ⟨⟨rfl, rfl, fun h => absurd (JsonVal.str.inj h) (by decide)⟩,
   ⟨rfl, rfl, fun h => JsonVal.noConfusion h⟩⟩

/-- C2 (amended): for every JSON record object, each output field is the
first TRUTHY value among the two alternates (a present-but-falsy value such
as `""` or `0` falls through like a missing one); when neither alternate is
truthy the field degrades to the empty string (name, option) or null
(count); and row building is total on objects — it never raises. -/
theorem rowFromRec_first_truthy (kvs : List (PyStr × JsonVal)) :
    (rowFromRec (JsonVal.obj kvs)).isSome = true ∧
    ∀ r, rowFromRec (JsonVal.obj kvs) = some r →
      ((pyTruthy (dictGetD kvs (pstr "carParkName")) = true →
          r.carpark = dictGetD kvs (pstr "carParkName")) ∧
       (pyTruthy (dictGetD kvs (pstr "carParkName")) = false →
          pyTruthy (dictGetD kvs (pstr "name")) = true →
          r.carpark = dictGetD kvs (pstr "name")) ∧
       (pyTruthy (dictGetD kvs (pstr "carParkName")) = false →
          pyTruthy (dictGetD kvs (pstr "name")) = false →
          r.carpark = JsonVal.str [])) ∧
      ((pyTruthy (dictGetD kvs (pstr "category")) = true →
          r.parking_option = dictGetD kvs (pstr "category")) ∧
       (pyTruthy (dictGetD kvs (pstr "category")) = false →
          pyTruthy (dictGetD kvs (pstr "parkingOption")) = true →
          r.parking_option = dictGetD kvs (pstr "parkingOption")) ∧
       (pyTruthy (dictGetD kvs (pstr "category")) = false →
          pyTruthy (dictGetD kvs (pstr "parkingOption")) = false →
          r.parking_option = JsonVal.str [])) ∧
      ((pyTruthy (dictGetD kvs (pstr "availableSpaces")) = true →
          r.available_spaces = dictGetD kvs (pstr "availableSpaces")) ∧
       (pyTruthy (dictGetD kvs (pstr "availableSpaces")) = false →
          pyTruthy (dictGetD kvs (pstr "available")) = true →
          r.available_spaces = dictGetD kvs (pstr "available")) ∧
       (pyTruthy (dictGetD kvs (pstr "availableSpaces")) = false →
          pyTruthy (dictGetD kvs (pstr "available")) = false →
          r.available_spaces = JsonVal.null)) := by
  refine ⟨rfl, ?_⟩
  intro r h
  simp only [rowFromRec, Option.some.injEq] at h
  subst h
  refine ⟨⟨?_, ?_, ?_⟩, ⟨?_, ?_, ?_⟩, ⟨?_, ?_, ?_⟩⟩ <;>
    intros h1 <;> try intro h2
  all_goals simp [pyOr, h1]
  all_goals simp [h2]

/-- C2 witness: a record carrying only `name` and `available` selects those
values via the second alternates. -/
theorem rowFromRec_first_truthy_witness :
    (rowFromRec (JsonVal.obj [(pstr "name", JsonVal.str (pstr "Civic")),
        (pstr "available", JsonVal.num 10)])).isSome = true ∧
    ∀ r, rowFromRec (JsonVal.obj [(pstr "name", JsonVal.str (pstr "Civic")),
        (pstr "available", JsonVal.num 10)]) = some r →
      r.carpark = JsonVal.str (pstr "Civic") ∧
      r.available_spaces = JsonVal.num 10 := by
  have h := rowFromRec_first_truthy
    [(pstr "name", JsonVal.str (pstr "Civic")), (pstr "available", JsonVal.num 10)]
  refine ⟨h.1, ?_⟩
  intro r hr
  refine ⟨(h.2 r hr).1.2.1 (by decide) ?_, (h.2 r hr).2.2.2.1 (by decide) ?_⟩
  · show pyTruthy (dictGetD _ _) = true
    rfl
  · show pyTruthy (dictGetD _ _) = true
    rfl

/-! ## C1: JSON extraction strategy order -/

/-- C1 counterexample: for a body whose trimmed text starts with a brace but
fails the whole-body parse, the code returns no JSON value immediately even
though the first-brace-to-last-brace substring parses — there is no
fall-through from the whole-body strategy to the substring strategies. -/
theorem tryParseJson_no_fallthrough_cex :
    tryParseJson (pstr "\x7b\"a\":1\x7d x") = none ∧
    sliceParse (pyStrip (pstr "\x7b\"a\":1\x7d x")) '\x7b' '\x7d' =
      some (JsonVal.obj [(pstr "a", JsonVal.num 1)]) := ⟨rfl, rfl⟩

/-- C1 (amended): when the trimmed body starts with a brace or bracket the
whole-body parse alone decides the result — on failure extraction returns no
JSON value WITHOUT trying the substring strategies; only when the trimmed
body starts with neither are the substring strategies run, in order with
fall-through: first `{`..last `}` as an object, then first `[`..last `]` as
an array, and `none` only when both miss or fail. -/
theorem tryParseJson_strategy_order (body : PyStr) :
    (startsBraceOrBracket (pyStrip body) = true →
      tryParseJson body = jsonLoads (pyStrip body)) ∧
    (startsBraceOrBracket (pyStrip body) = false →
      (∀ v, sliceParse (pyStrip body) '\x7b' '\x7d' = some v →
        tryParseJson body = some v) ∧
      (sliceParse (pyStrip body) '\x7b' '\x7d' = none →
        tryParseJson body = sliceParse (pyStrip body) '[' ']')) := by
  constructor
  · intro hs
    simp only [tryParseJson, hs, if_true]
  · intro hs
    constructor
    · intro v hv
      simp only [tryParseJson, hs, Bool.false_eq_true, if_false, hv]
    · intro hnone
      simp only [tryParseJson, hs, Bool.false_eq_true, if_false, hnone]

/-- C1 witness: a body with leading prose exercises the embedded-object
strategy, and one with only an embedded array falls through to the
embedded-array strategy. -/
theorem tryParseJson_strategy_order_witness :
    tryParseJson (pstr "text \x7b\"a\":1\x7d tail") =
      some (JsonVal.obj [(pstr "a", JsonVal.num 1)]) ∧
    tryParseJson (pstr "pre [1,2] post") =
      some (JsonVal.arr [JsonVal.num 1, JsonVal.num 2]) := by
  constructor
  · exact (tryParseJson_strategy_order (pstr "text \x7b\"a\":1\x7d tail")).2
      (by decide) |>.1 _ rfl
  · have h := (tryParseJson_strategy_order (pstr "pre [1,2] post")).2 (by decide)
    rw [h.2 rfl]
    rfl

/-! ## C4: no ignored or stop-collecting carpark in the output batch -/

/-- The record the Victoria-Street HTML scenario produces. -/
def victoriaRecord : EnrichedRecord :=
  { timestamp_utc := pstr "T", carpark := pstr "Victoria Street",
    available_spaces := JsonVal.num 45, total_spaces := some 120,
    occupancy := some (mkRat 5 8), status := [],
    parking_option := JsonVal.str (pstr "Short Stay"),
    source_last_updated := [] }

/-- C4: over every response body, declared content type and extraction path
(the quantified `soupCells` covers every possible HTML shape, and the JSON
path feeds the same enrichment), each record of the persisted batch has a
carpark that is neither the ignore sentinel nor a name whose normalised key
is in the stop-collecting set; and a row whose raw name normalises into the
ignore set is dropped by enrichment (`canonical_name` returns the sentinel),
so it never reaches the batch. -/
theorem runBatch_no_ignored_records :
    (∀ soupCells body contentType cap ts batch,
      runBatch soupCells body contentType cap ts = some batch →
      ∀ e ∈ batch, e.carpark ≠ IGNORE_SENTINEL ∧
        _norm e.carpark ∉ STOP_COLLECTING) ∧
    (∀ cap ts r s, r.carpark = JsonVal.str s → _norm s ∈ IGNORE_CARPARKS →
      enrichRow cap ts r = some none) := by
  constructor
  · intro soupCells body contentType cap ts batch hrun e he
    simp only [runBatch] at hrun
    cases hext : extractRows soupCells body contentType with
    | none => rw [hext] at hrun; cases hrun
    | some rows =>
      rw [hext] at hrun
      exact enrichRows_carpark_ok cap ts rows batch hrun e he
  · intro cap ts r s hcar hig
    simp only [enrichRow, hcar, strOfCarpark]
    have hsent : canonical_name s = IGNORE_SENTINEL := by
      simp only [canonical_name, hig, if_true]
    simp [hsent]

/-- C4 witness: the concrete Victoria-Street HTML run yields a batch whose
record passes both filters, and a concrete Albert-Street row (ignore set) is
dropped by enrichment. -/
theorem runBatch_no_ignored_records_witness :
    (victoriaRecord.carpark ≠ IGNORE_SENTINEL ∧
      _norm victoriaRecord.carpark ∉ STOP_COLLECTING) ∧
    enrichRow [] (pstr "T")
      ⟨JsonVal.str (pstr "Albert Street"), JsonVal.str [], JsonVal.null⟩ =
      some none := by
  constructor
  · exact runBatch_no_ignored_records.1 soupVictoriaRow (pstr "<html>")
      (pstr "text/html") [(pstr "Victoria Street", 120)] (pstr "T")
      [victoriaRecord] rfl victoriaRecord (List.mem_singleton.mpr rfl)
  · exact runBatch_no_ignored_records.2 [] (pstr "T") _ (pstr "Albert Street")
      rfl (by decide)

/-! ## C6: JSON-first precedence -/

/-- A character surviving at the head of a `dropWhile` fails the predicate. -/
theorem head_dropWhile_not (p : Char → Bool) :
    ∀ (l : PyStr) (c : Char), (l.dropWhile p).head? = some c → p c = false := by
  intro l
  induction l with
  | nil => intro c h; exact Option.noConfusion h
  | cons a l ih =>
    intro c h
    rw [List.dropWhile_cons] at h
    by_cases hp : p a
    · exact ih c (by simpa [hp] using h)
    · simp [hp] at h
      subst h
      revert hp
      cases p a <;> simp

/-- The last element of a nonempty `dropWhile` result is the last element of
the original list (`dropWhile` keeps a suffix). -/
theorem getLast_dropWhile (p : Char → Bool) :
    ∀ (l : PyStr) (c : Char), (l.dropWhile p).getLast? = some c →
      l.getLast? = some c := by
  intro l
  induction l with
  | nil => intro c h; simp at h
  | cons a l ih =>
    intro c h
    rw [List.dropWhile_cons] at h
    by_cases hp : p a
    · rw [if_pos hp] at h
      have hl := ih c h
      cases l with
      | nil => simp at hl
      | cons b m => rw [List.getLast?_cons_cons]; exact hl
    · rw [if_neg hp] at h
      exact h

/-- JSON whitespace is Python whitespace. -/
theorem jsonWs_pythonWs (c : Char) : jsonWs c = true → pythonWs c = true := by
  intro h
  simp only [jsonWs, Bool.or_eq_true, decide_eq_true_eq] at h
  rcases h with ((h | h) | h) | h <;> subst h <;> decide

/-- A Python-stripped string has no leading JSON whitespace to skip. -/
theorem skipWs_pyStrip (s : PyStr) : skipWs (pyStrip s) = pyStrip s := by
  cases hh : (pyStrip s).head? with
  | none =>
    have hnil : pyStrip s = [] := by
      cases hps : pyStrip s with
      | nil => rfl
      | cons c t => rw [hps] at hh; simp at hh
    rw [hnil]; rfl
  | some c =>
    have hpw : pythonWs c = false := by
      have h1 : ((s.dropWhile pythonWs).reverse.dropWhile pythonWs).getLast? =
          some c := by
        have := hh
        simp only [pyStrip] at this
        rwa [List.head?_reverse] at this
      have h2 : (s.dropWhile pythonWs).reverse.getLast? = some c :=
        getLast_dropWhile pythonWs _ c h1
      rw [List.getLast?_reverse] at h2
      exact head_dropWhile_not pythonWs _ c h2
    have hjw : jsonWs c = false := by
      cases hj : jsonWs c with
      | false => rfl
      | true => rw [jsonWs_pythonWs c hj] at hpw; cases hpw
    obtain ⟨t, ht⟩ : ∃ t, pyStrip s = c :: t := by
      cases hps : pyStrip s with
      | nil => rw [hps] at hh; simp at hh
      | cons d t =>
        rw [hps] at hh
        simp only [List.head?_cons, Option.some.injEq] at hh
        exact ⟨t, by rw [hh]⟩
    rw [ht]
    simp [skipWs, List.dropWhile_cons, hjw]

/-- A successful `parseValue` returning an array consumed an opening
bracket: the input starts with `[`. -/
theorem parseValue_arr_head :
    ∀ (f : Nat) (s : PyStr) (l : List JsonVal) (r : PyStr),
      parseValue f s = some (JsonVal.arr l, r) → ∃ t, s = '[' :: t := by
  intro f s l r h
  cases f with
  | zero => simp [parseValue] at h
  | succ f =>
    cases s with
    | nil => simp [parseValue] at h
    | cons c cr =>
      simp only [parseValue] at h
      split_ifs at h with h1 h2 h3 h4 h5 h6
      · exfalso
        split at h
        · simp_all
        · split at h <;> simp_all
      · exact ⟨cr, by rw [h2]⟩
      · exfalso
        split at h <;> simp_all
      · exfalso
        split at h <;> simp_all
      · exfalso
        split at h <;> simp_all
      · exfalso
        split at h <;> simp_all
      · exfalso
        split at h <;> simp_all

/-- Row building from a JSON array preserves length when it succeeds. -/
theorem rowsFromList_length :
    ∀ (l : List JsonVal) (rows : List RowDict),
      rowsFromList l = some rows → rows.length = l.length := by
  intro l
  induction l with
  | nil => intro rows h; cases h; rfl
  | cons x xs ih =>
    intro rows h
    simp only [rowsFromList] at h
    cases hx : rowFromRec x with
    | none => rw [hx] at h; cases h
    | some r =>
      rw [hx] at h
      cases hxs : rowsFromList xs with
      | none => rw [hxs] at h; cases h
      | some rs =>
        rw [hxs] at h
        cases h
        simp [ih rs hxs]

/-- C6 counterexample: the body `"[]"` is valid JSON array text, yet because
the resulting row list is empty the code falls into `parse_html_table` — the
instrumentation flag records that the HTML path WAS consulted, refuting
"never routed through HTML extraction".  (`soupNoRows` models BeautifulSoup
finding no div-table rows in plain JSON text, so the outcome happens to be
empty either way.) -/
theorem extract_empty_array_html_cex :
    jsonLoads (pyStrip (pstr "[]")) = some (JsonVal.arr []) ∧
    extractRowsI soupNoRows (pstr "[]") (pstr "text/html") = some ([], true) :=
  ⟨rfl, rfl⟩

/-- C6 (amended): for every body whose trimmed text is a valid NONEMPTY JSON
array, extraction never consults the HTML table path and the record list is
derived from the array alone (element-wise, aborting on a non-object
element); the claim fails only for the empty JSON array, where the code
falls through to the HTML path because the row list is empty. -/
theorem extract_json_array_first (soupCells : PyStr → List (List PyStr))
    (body ct : PyStr) (l : List JsonVal)
    (h : jsonLoads (pyStrip body) = some (JsonVal.arr l)) (hne : l ≠ []) :
    extractRowsI soupCells body ct =
      (rowsFromList l).map (fun rows => (rows, false)) := by
  have hskip : skipWs (pyStrip body) = pyStrip body := skipWs_pyStrip body
  have hhead : ∃ u, pyStrip body = '[' :: u := by
    have h' := h
    unfold jsonLoads at h'
    rw [hskip] at h'
    cases hp : parseValue (2 * (pyStrip body).length + 2) (pyStrip body) with
    | none => rw [hp] at h'; cases h'
    | some vr =>
      obtain ⟨v, rest⟩ := vr
      simp only [hp] at h'
      by_cases hrest : skipWs rest = []
      · rw [if_pos hrest] at h'
        cases h'
        exact parseValue_arr_head _ _ _ _ hp
      · rw [if_neg hrest] at h'; cases h'
  have hsb : startsBraceOrBracket (pyStrip body) = true := by
    obtain ⟨u, hu⟩ := hhead
    simp [startsBraceOrBracket, hu]
  have htp : tryParseJson body = some (JsonVal.arr l) := by
    simp only [tryParseJson, hsb, if_true]
    exact h
  simp only [extractRowsI, extract_data_eq]
  rw [htp]
  cases hr : rowsFromList l with
  | none => simp [rowsFromData, hr]
  | some rows =>
    have hlen := rowsFromList_length l rows hr
    have hrne : rows ≠ [] := by
      intro h0
      subst h0
      simp only [List.length_nil] at hlen
      exact hne (List.length_eq_zero.mp hlen.symm)
    simp only [rowsFromData, hr, Option.map_some']
    rw [if_neg (by simpa [List.isEmpty_iff] using hrne)]

/-- C6 witness: a singleton JSON array body (one empty object) takes the
JSON path: the HTML flag is false and the row comes from the array. -/
theorem extract_json_array_first_witness :
    jsonLoads (pyStrip (pstr "[\x7b\x7d]")) =
      some (JsonVal.arr [JsonVal.obj []]) ∧
    ([JsonVal.obj []] : List JsonVal) ≠ [] ∧
    extractRowsI soupNoRows (pstr "[\x7b\x7d]") (pstr "") =
      (rowsFromList [JsonVal.obj []]).map (fun rows => (rows, false)) :=
  ⟨rfl, by simp,
   extract_json_array_first soupNoRows _ _ _ rfl (by simp)⟩
